import Mathlib

/-!
Verification of the forecasting engine of the Cash-Flow-Dashboard repository
(`src/forecaster.py`, class `CashFlowForecaster`).

Shallow embedding conventions:
* `self.data` (a pandas DataFrame of monthly rows) is a `TimeSeries`: an ordered
  list of observations plus a flag recording whether the derived `'month'`
  column is present.  Each observation carries its `year_month` as an absolute
  month index `ym : ℤ` (calendar month = `ym % 12 + 1`) and the value of the one
  target column under study, with `none` standing for a float NaN.
* pandas operations that raise on an empty frame (`iloc[-1]`, `iloc[0]`,
  `.min().to_timestamp()`) are embedded as `Option`-returning lookups, and a
  method that can raise returns `none` for its result part.
* Methods that can assign to `self.data` return the updated `TimeSeries`
  alongside their result (explicit state passing).  The only such assignments
  in the embedded methods set the `'month'` column to the derived calendar
  month of `year_month` (forecaster.py lines 27-28, analyzer.py lines 30-31);
  since the `'month'` column is always that derived value in this repository,
  it is embedded as the boolean presence flag, and month lookups read the
  derived calendar month.
* The Holt-Winters fit (`statsmodels ExponentialSmoothing(...).fit()`) is a
  library call, not repository code.  It is abstracted as a parameter
  `fit : Option (ℕ → Option ℚ)`: `none` models the `except` branch (fit or
  forecast raised), `some f` models a successful fit whose step-`i` forecast
  value is `f i` (statsmodels returns exactly `steps` values, indexed as the
  continuation of the date index the source builds from the minimum month).
-/

/-- One row of the monthly DataFrame, restricted to the target column:
`ym` embeds the `year_month` period as an absolute month index, `val` the
column value (`none` = NaN). -/
structure Obs where
  ym : ℤ
  val : Option ℚ
deriving DecidableEq, Repr

/-- The DataFrame `self.data`: ordered rows plus presence of the derived
`'month'` column. -/
structure TimeSeries where
  rows : List Obs
  hasMonth : Bool
deriving DecidableEq, Repr

/-- Calendar month (1..12) of an absolute month index, as in
`year_month.dt.month`. -/
def monthOf (m : ℤ) : ℤ := m % 12 + 1

/-- Embeds `self.data['year_month'].iloc[-1]` (raises on an empty frame, hence
`Option`). -/
def lastYMrows (rows : List Obs) : Option ℤ :=
  (rows.getLast?).map Obs.ym

/-- Last month of the series. -/
def lastYM (s : TimeSeries) : Option ℤ := lastYMrows s.rows

/-- Embeds `self.data['year_month'].min()` as an absolute month index (`none` on an
empty frame, where the subsequent `.to_timestamp()` raises). -/
def minYMrows : List Obs → Option ℤ
  | [] => none
  | o :: os =>
    match minYMrows os with
    | none => some o.ym
    | some m => some (min o.ym m)

/-- Embeds `pd.date_range(start=last_date + DateOffset(months=1), periods=periods,
freq='ME')`, at month granularity: the `periods` consecutive months following
`last`. -/
def forecastDates (last : ℤ) (periods : ℕ) : List ℤ :=
  (List.range periods).map (fun (i : ℕ) => last + 1 + (i : ℤ))

/-- One row of a forecast DataFrame as produced by the three model methods:
`date` (month index of the target month), `forecast` (`none` = NaN), and the
`method` label. -/
structure FRow where
  date : ℤ
  forecast : Option ℚ
  method : String
deriving DecidableEq, Repr

/-- All-or-nothing sequencing of NaN-able values: `some` exactly when every
entry is defined. -/
def seqOption : List (Option ℚ) → Option (List ℚ)
  | [] => some []
  | o :: os => o.bind (fun x => (seqOption os).map (fun xs => x :: xs))

/-- Embeds `self.data[column].rolling(window=window).mean().iloc[-1]`: the mean of the
last `window` values, `none` (NaN) when the frame has fewer than `window` rows
or any of those values is NaN.  (`window = 0` is rejected by pandas and
embedded as undefined.) -/
def lastMA (vals : List (Option ℚ)) (window : ℕ) : Option ℚ :=
  if vals.length < window ∨ window = 0 then none
  else (seqOption (vals.drop (vals.length - window))).map
    (fun xs => xs.sum / (window : ℚ))

/-- Embeds `CashFlowForecaster.moving_average_forecast` (forecaster.py lines 14-23):
repeats the last rolling mean flat over the horizon.  `none` when the frame is
empty (`ma.iloc[-1]` raises).  Does not touch `self.data`. -/
def moving_average_forecast (s : TimeSeries) (window periods : ℕ) :
    Option (List FRow) :=
  (lastYM s).map (fun last =>
    (forecastDates last periods).map (fun d =>
      { date := d, forecast := lastMA (s.rows.map Obs.val) window,
        method := "Moving Average" }))

/-- Embeds `series.mean()` in pandas: NaNs are skipped; the mean of an empty or
all-NaN selection is NaN (`none`). -/
def colMean (vs : List (Option ℚ)) : Option ℚ :=
  let xs := vs.filterMap id
  if xs.length = 0 then none else some (xs.sum / (xs.length : ℚ))

/-- The value appended for forecast month `d` in `seasonal_naive_forecast`
(forecaster.py lines 34-41): the value one year prior if such a row exists
(taken verbatim via `.iloc[0]`, even if NaN), otherwise the mean over all rows
sharing `d`'s calendar month. -/
def snVal (rows : List Obs) (d : ℤ) : Option ℚ :=
  match (rows.filter (fun o => o.ym == d - 12)).head? with
  | some o => o.val
  | none => colMean ((rows.filter (fun o => monthOf o.ym == monthOf d)).map Obs.val)

/-- The result DataFrame of `seasonal_naive_forecast`: `none` when the frame is
empty (`iloc[-1]` raises after the `'month'` column assignment). -/
def snRows (rows : List Obs) (periods : ℕ) : Option (List FRow) :=
  (lastYMrows rows).map (fun last =>
    (forecastDates last periods).map (fun d =>
      { date := d, forecast := snVal rows d, method := "Seasonal Naive" }))

/-- Lines 27-28: `if 'month' not in self.data.columns: self.data['month'] =
self.data['year_month'].dt.month` — adds the derived `'month'` column when
absent. -/
def addMonthCol (s : TimeSeries) : TimeSeries :=
  if s.hasMonth then s else { rows := s.rows, hasMonth := true }

/-- Embeds `CashFlowForecaster.seasonal_naive_forecast` (forecaster.py lines 25-43),
with the `self.data` state it leaves behind returned first. -/
def seasonal_naive_forecast (s : TimeSeries) (periods : ℕ) :
    TimeSeries × Option (List FRow) :=
  (addMonthCol s, snRows s.rows periods)

/-- The result DataFrame of `exponential_smoothing_forecast` (forecaster.py
lines 45-56).  `none` when the frame is empty (`.min().to_timestamp()` raises
before the `try`).  On a successful fit, statsmodels' forecast index continues
the index the source constructed from the minimum month, so the target months
start `len(rows)` months after the minimum month — not necessarily right after
the last month when the series has gaps.  On fit failure the seasonal-naive
result is returned. -/
def esRows (rows : List Obs) (periods : ℕ) (fit : Option (ℕ → Option ℚ)) :
    Option (List FRow) :=
  match minYMrows rows with
  | none => none
  | some m0 =>
    match fit with
    | some f =>
      some ((List.range periods).map (fun (i : ℕ) =>
        { date := m0 + (rows.length : ℤ) + (i : ℤ), forecast := f i,
          method := "Exponential Smoothing" }))
    | none => snRows rows periods

/-- The `self.data` state after `exponential_smoothing_forecast`: unchanged,
except that the fallback call to `seasonal_naive_forecast` adds the `'month'`
column. -/
def esState (s : TimeSeries) (fit : Option (ℕ → Option ℚ)) : TimeSeries :=
  match minYMrows s.rows, fit with
  | some _, none => addMonthCol s
  | _, _ => s

/-- Embeds `CashFlowForecaster.exponential_smoothing_forecast` (forecaster.py lines
45-56), state first. -/
def exponential_smoothing_forecast (s : TimeSeries) (periods : ℕ)
    (fit : Option (ℕ → Option ℚ)) : TimeSeries × Option (List FRow) :=
  (esState s fit, esRows s.rows periods fit)

/-- Elementwise NaN-propagating addition, as for numpy arrays holding NaN. -/
def oadd : Option ℚ → Option ℚ → Option ℚ
  | some a, some b => some (a + b)
  | _, _ => none

/-- Positional combination of three equal-length arrays, as numpy's
elementwise arithmetic. -/
def zip3With (f : α → β → γ → δ) : List α → List β → List γ → List δ
  | a :: as, b :: bs, c :: cs => f a b c :: zip3With f as bs cs
  | _, _, _ => []

/-- One row of the ensemble DataFrame (forecaster.py lines 66-69). -/
structure ERow where
  date : ℤ
  forecast : Option ℚ
  method : String
  ma_forecast : Option ℚ
  seasonal_forecast : Option ℚ
  es_forecast : Option ℚ
deriving DecidableEq, Repr

/-- Ensemble row built from aligned rows of the three component frames:
`date` is taken from the moving-average frame (line 67, `'date': ma_f['date']`),
the point forecast is `(ma + seasonal + es) / 3` with NaN propagation
(line 64). -/
def mkERow (ma sn es : FRow) : ERow :=
  { date := ma.date,
    forecast := (oadd (oadd ma.forecast sn.forecast) es.forecast).map
      (fun x => x / 3),
    method := "Ensemble",
    ma_forecast := ma.forecast,
    seasonal_forecast := sn.forecast,
    es_forecast := es.forecast }

/-- Embeds `CashFlowForecaster.ensemble_forecast` (forecaster.py lines 58-69), state
first.  The three component methods run in source order (the moving average
first — if it raises on an empty frame, the state is untouched; the
seasonal-naive call then adds the `'month'` column; the exponential-smoothing
call runs on that state).  Note the source performs no consistency check:
component values are combined positionally and labelled with the
moving-average dates. -/
def ensemble_forecast (s : TimeSeries) (periods : ℕ)
    (fit : Option (ℕ → Option ℚ)) : TimeSeries × Option (List ERow) :=
  match moving_average_forecast s 3 periods with
  | none => (s, none)
  | some maf =>
    match (seasonal_naive_forecast s periods).2 with
    | none => ((seasonal_naive_forecast s periods).1, none)
    | some snf =>
      match (exponential_smoothing_forecast (seasonal_naive_forecast s periods).1 periods fit).2 with
      | none => ((exponential_smoothing_forecast (seasonal_naive_forecast s periods).1 periods fit).1, none)
      | some esf =>
        ((exponential_smoothing_forecast (seasonal_naive_forecast s periods).1 periods fit).1,
          some (zip3With mkERow maf snf esf))

/-- Sample variance of the non-NaN values of a column, as
`self.data[column].std() ** 2`: pandas `std` skips NaNs and uses the `n - 1`
denominator, and is NaN (`none`) with fewer than two values. -/
def histVar (vs : List (Option ℚ)) : Option ℚ :=
  let xs := vs.filterMap id
  if xs.length < 2 then none
  else
    some (((xs.map (fun x => (x - xs.sum / (xs.length : ℚ)) ^ 2)).sum) /
      ((xs.length - 1 : ℕ) : ℚ))

/-- One row of a forecast DataFrame after (or before) the confidence-interval
columns are written.  Fields the call has not written yet may hold anything. -/
structure CIRow where
  date : ℤ
  forecast : Option ℚ
  method : String
  lower_80 : Option ℚ
  upper_80 : Option ℚ
  lower_95 : Option ℚ
  upper_95 : Option ℚ
deriving DecidableEq, Repr

/-- Embeds `CashFlowForecaster.calculate_confidence_intervals` (forecaster.py lines
71-80).  The source computes `hist_std = self.data[column].std()`; here
`hist_std` is passed as a parameter, constrained in the theorems to be the
nonnegative square root of `histVar` of the column — the four band columns are
overwritten from the unchanged `forecast` column (NaN forecasts give NaN
bands). -/
def calculate_confidence_intervals (hist_std : ℚ) (fd : List CIRow) :
    List CIRow :=
  fd.map (fun r =>
    { r with
      lower_80 := r.forecast.map (fun v => v - (128 / 100) * hist_std),
      upper_80 := r.forecast.map (fun v => v + (128 / 100) * hist_std),
      lower_95 := r.forecast.map (fun v => v - (196 / 100) * hist_std),
      upper_95 := r.forecast.map (fun v => v + (196 / 100) * hist_std) })

/-- One row of a forecast DataFrame with its scenario columns: `scen` lists
the `f'{name}_forecast'` columns written by `scenario_analysis`, in scenario
order. -/
structure SRow where
  forecast : Option ℚ
  scen : List (String × Option ℚ)
deriving DecidableEq, Repr

/-- The default scenario mapping (forecaster.py line 85). -/
def defaultScenarios : List (String × ℚ) :=
  [("pessimistic", 8 / 10), ("optimistic", 12 / 10), ("conservative", 9 / 10)]

/-- Embeds `CashFlowForecaster.scenario_analysis` (forecaster.py lines 82-90): one
column per scenario, equal to the base forecast times the multiplier (scenario
names are Python dict keys, hence distinct; iteration follows mapping order). -/
def scenario_analysis (fd : List SRow)
    (scenarios : Option (List (String × ℚ))) : List SRow :=
  fd.map (fun r =>
    { r with
      scen := (scenarios.getD defaultScenarios).map (fun p =>
        (p.1, r.forecast.map (fun v => v * p.2))) })

/-- Elementwise NaN-propagating subtraction, as for float columns. -/
def osub : Option ℚ → Option ℚ → Option ℚ
  | some a, some b => some (a - b)
  | _, _ => none

/-- Float division of NaN-able quantities: `none` models a non-finite result —
a NaN operand, or a zero divisor (where floats give ±inf or NaN).  No claim
reads a value produced through a zero divisor. -/
def fdiv : Option ℚ → Option ℚ → Option ℚ
  | some a, some b => if b = 0 then none else some (a / b)
  | _, _ => none

/-- Embeds a pandas NaN-skipping `min` aggregate (NaN when no value is
defined). -/
def colMin (vs : List (Option ℚ)) : Option ℚ :=
  match vs.filterMap id with
  | [] => none
  | x :: xs => some (xs.foldl min x)

/-- Embeds a pandas NaN-skipping `max` aggregate (NaN when no value is
defined). -/
def colMax (vs : List (Option ℚ)) : Option ℚ :=
  match vs.filterMap id with
  | [] => none
  | x :: xs => some (xs.foldl max x)

/-- Values of the `groupby('month')` group for calendar month `m`
(analyzer.py line 33); the `'month'` column is the derived calendar month. -/
def monthGroupVals (rows : List Obs) (m : ℤ) : List (Option ℚ) :=
  (rows.filter (fun o => monthOf o.ym == m)).map Obs.val

/-- The distinct group keys of `groupby('month')`, in the ascending order
pandas produces. -/
def monthsPresent (rows : List Obs) : List ℤ :=
  (((List.range 12).map (fun (i : ℕ) => (i : ℤ) + 1)).filter
    (fun m => !(rows.filter (fun o => monthOf o.ym == m)).isEmpty))

/-- One row of the `monthly_stats` frame built by `analyze_seasonality`
(analyzer.py lines 33-37).  The per-month `std` aggregate (and the derived
`coefficient_of_variation` scalar) is a square root over the data, irrational
over ℚ, and is not modelled — no claim concerns those two values. -/
structure MonthStats where
  month : ℤ
  mean : Option ℚ
  min : Option ℚ
  max : Option ℚ
  count : ℕ
  seasonal_index : Option ℚ
  seasonal_variation : Option ℚ
deriving DecidableEq, Repr

/-- The `monthly_stats` row for calendar month `m`: NaN-skipping aggregates of
the month's group, plus the seasonal index `mean / overall_mean` and the
seasonal variation `(mean - overall_mean) / overall_mean * 100`. -/
def mkMonthStats (rows : List Obs) (overall : Option ℚ) (m : ℤ) : MonthStats :=
  { month := m, mean := colMean (monthGroupVals rows m),
    min := colMin (monthGroupVals rows m), max := colMax (monthGroupVals rows m),
    count := ((monthGroupVals rows m).filterMap id).length,
    seasonal_index := fdiv (colMean (monthGroupVals rows m)) overall,
    seasonal_variation :=
      (fdiv (osub (colMean (monthGroupVals rows m)) overall) overall).map
        (fun x => x * 100) }

/-- Embeds pandas `idxmax` over a keyed column: the first entry holding the
maximum (ties keep the earlier entry, i.e. the lower month after the ascending
groupby sort). -/
def idxmaxBy (l : List (ℤ × ℚ)) : Option (ℤ × ℚ) :=
  l.foldl (fun acc p =>
    match acc with
    | none => some p
    | some q => if q.2 < p.2 then some p else some q) none

/-- Embeds pandas `idxmin` over a keyed column (first minimum). -/
def idxminBy (l : List (ℤ × ℚ)) : Option (ℤ × ℚ) :=
  l.foldl (fun acc p =>
    match acc with
    | none => some p
    | some q => if p.2 < q.2 then some p else some q) none

/-- The result record of `analyze_seasonality` (analyzer.py lines 42-48),
without the `coefficient_of_variation` scalar (see `MonthStats`). -/
structure SeasonalStats where
  monthly_stats : List MonthStats
  peak_month : ℤ
  trough_month : ℤ
  seasonal_range : Option ℚ
deriving DecidableEq, Repr

/-- The seasonal statistics computed by `analyze_seasonality` from the frame's
rows (analyzer.py lines 33-48): `none` models the `ValueError` that `idxmax`
raises when no per-month mean is defined (in particular on an empty frame),
which occurs after the `'month'` column has already been assigned. -/
def seasonalStatsResult (rows : List Obs) : Option SeasonalStats :=
  let stats := (monthsPresent rows).map (mkMonthStats rows (colMean (rows.map Obs.val)))
  let keyedMeans := stats.filterMap (fun r => r.mean.map (fun v => (r.month, v)))
  match idxmaxBy keyedMeans, idxminBy keyedMeans with
  | some pk, some tr =>
    some { monthly_stats := stats, peak_month := pk.1, trough_month := tr.1,
           seasonal_range := osub (colMax (stats.map MonthStats.mean))
             (colMin (stats.map MonthStats.mean)) }
  | _, _ => none

/-- Embeds `SeasonalAnalyzer.analyze_seasonality` (analyzer.py lines 28-49),
state first: lines 30-31 assign the derived `'month'` column to `self.data`
when absent — the same in-place mutation as in `seasonal_naive_forecast` —
and the statistics are a new structure derived from the rows; the method
writes them to `self.seasonal_stats`, never back into the frame. -/
def analyze_seasonality (s : TimeSeries) : TimeSeries × Option SeasonalStats :=
  (addMonthCol s, seasonalStatsResult s.rows)

/-- The unpacking of `stats.linregress(x, y)` (analyzer.py line 79), a scipy
library call abstracted as a parameter record. -/
structure LinReg where
  slope : ℚ
  intercept : ℚ
  r_value : ℚ
  p_value : ℚ
  std_err : ℚ
deriving DecidableEq, Repr

/-- The result record of `trend_analysis` (analyzer.py lines 90-98).  In the
two percent fields `none` models a non-finite float: the `np.inf` branch taken
when the first observation is exactly zero, or NaN propagation from a NaN
baseline. -/
structure TrendStats where
  slope : ℚ
  r_squared : ℚ
  p_value : ℚ
  total_change_percent : Option ℚ
  is_stationary : Bool
  adf_p_value : ℚ
  monthly_growth_rate_percent : Option ℚ
deriving DecidableEq, Repr

/-- Embeds `((end_val - start_val) / abs(start_val)) * 100 if start_val != 0
else np.inf` (analyzer.py line 84). -/
def pctChange (startv endv : Option ℚ) : Option ℚ :=
  match startv, endv with
  | some a, some b => if a = 0 then none else some ((b - a) / |a| * 100)
  | _, _ => none

/-- Embeds `(slope / abs(start_val)) * 100 if start_val != 0 else np.inf`
(analyzer.py line 85). -/
def growthRate (startv : Option ℚ) (slope : ℚ) : Option ℚ :=
  match startv with
  | some a => if a = 0 then none else some (slope / |a| * 100)
  | none => none

/-- The trend statistics computed by `trend_analysis` from the frame's rows
(analyzer.py lines 75-99): `none` models the raise on an empty frame
(`linregress` and `iloc[0]` both fail there).  The regression and the
Augmented Dickey-Fuller test are scipy/statsmodels library calls abstracted
as the `reg` record and the `adf_p` p-value; a library failure on a short
series would not touch the frame either. -/
def trendStatsResult (rows : List Obs) (reg : LinReg) (adf_p : ℚ) :
    Option TrendStats :=
  match rows.head?, rows.getLast? with
  | some o0, some o1 =>
    some { slope := reg.slope, r_squared := reg.r_value ^ 2, p_value := reg.p_value,
           total_change_percent := pctChange o0.val o1.val,
           is_stationary := decide (adf_p < 1 / 20), adf_p_value := adf_p,
           monthly_growth_rate_percent := growthRate o0.val reg.slope }
  | _, _ => none

/-- Embeds `SeasonalAnalyzer.trend_analysis` (analyzer.py lines 75-99), state
first: the method only reads the column — it never assigns to `self.data`, so
the frame is returned unchanged. -/
def trend_analysis (s : TimeSeries) (reg : LinReg) (adf_p : ℚ) :
    TimeSeries × Option TrendStats :=
  (s, trendStatsResult s.rows reg adf_p)

/-- Embeds `SeasonalAnalyzer.decompose_time_series` (analyzer.py lines 14-26),
state first.  The repository logic is the period adjustment of lines 16-17
(`period = max(1, len(data) // 2)` when fewer than `2 * period` rows) and the
hand-off of the column values; the additive decomposition itself is a
statsmodels library call, abstracted as the `decomp` parameter applied to the
effective period and the values.  The method stores the result in
`self.decomposition` and returns it — it never assigns to `self.data`, so the
frame is returned unchanged. -/
def decompose_time_series {α : Type} (s : TimeSeries) (period : ℕ)
    (decomp : ℕ → List (Option ℚ) → α) : TimeSeries × α :=
  (s, decomp (if s.rows.length < 2 * period then max 1 (s.rows.length / 2) else period)
    (s.rows.map Obs.val))

/-! ### Basic facts about the embedding -/

theorem addMonthCol_rows (s : TimeSeries) : (addMonthCol s).rows = s.rows := by
  unfold addMonthCol
  split <;> rfl

theorem addMonthCol_idem (s : TimeSeries) :
    addMonthCol (addMonthCol s) = addMonthCol s := by
  cases h : s.hasMonth <;> simp [addMonthCol, h]

theorem sn_fst (s : TimeSeries) (p : ℕ) :
    (seasonal_naive_forecast s p).1 = addMonthCol s := rfl

theorem sn_snd (s : TimeSeries) (p : ℕ) :
    (seasonal_naive_forecast s p).2 = snRows s.rows p := rfl

theorem es_fst (s : TimeSeries) (p : ℕ) (fit : Option (ℕ → Option ℚ)) :
    (exponential_smoothing_forecast s p fit).1 = esState s fit := rfl

theorem es_snd (s : TimeSeries) (p : ℕ) (fit : Option (ℕ → Option ℚ)) :
    (exponential_smoothing_forecast s p fit).2 = esRows s.rows p fit := rfl

theorem minYMrows_of_ne {rows : List Obs} (h : rows ≠ []) :
    ∃ m, minYMrows rows = some m := by
  cases rows with
  | nil => exact absurd rfl h
  | cons o os =>
    cases h' : minYMrows os with
    | none => exact ⟨o.ym, by simp [minYMrows, h']⟩
    | some m => exact ⟨min o.ym m, by simp [minYMrows, h']⟩

theorem lastYMrows_of_ne {rows : List Obs} (h : rows ≠ []) :
    ∃ L, lastYMrows rows = some L := by
  obtain ⟨o, ho⟩ := Option.isSome_iff_exists.1 (List.getLast?_isSome.2 h)
  exact ⟨o.ym, by unfold lastYMrows; rw [ho]; rfl⟩

theorem esState_addMonthCol (s : TimeSeries) (fit : Option (ℕ → Option ℚ)) :
    esState (addMonthCol s) fit = addMonthCol s := by
  unfold esState
  split
  · exact addMonthCol_idem s
  · rfl

theorem forecastDates_length (last : ℤ) (p : ℕ) : (forecastDates last p).length = p := by
  simp [forecastDates]

theorem ma_shape (s : TimeSeries) (w p : ℕ) (L : ℤ) (h : lastYM s = some L) :
    moving_average_forecast s w p = some ((forecastDates L p).map (fun d =>
      { date := d, forecast := lastMA (s.rows.map Obs.val) w,
        method := "Moving Average" })) := by
  unfold moving_average_forecast
  rw [h]
  rfl

theorem snRows_shape (rows : List Obs) (p : ℕ) (L : ℤ) (h : lastYMrows rows = some L) :
    snRows rows p = some ((forecastDates L p).map (fun d =>
      { date := d, forecast := snVal rows d, method := "Seasonal Naive" })) := by
  unfold snRows
  rw [h]
  rfl

theorem esRows_length (rows : List Obs) (p : ℕ) (fit : Option (ℕ → Option ℚ))
    (esf : List FRow) (h : esRows rows p fit = some esf) : esf.length = p := by
  unfold esRows at h
  cases hm0 : minYMrows rows with
  | none => rw [hm0] at h; simp at h
  | some m0 =>
    rw [hm0] at h
    cases fit with
    | some f =>
      simp at h
      rw [← h]
      simp
    | none =>
      simp only at h
      cases hL0 : lastYMrows rows with
      | none => unfold snRows at h; rw [hL0] at h; simp at h
      | some L0 =>
        rw [snRows_shape rows p L0 hL0] at h
        simp at h
        rw [← h]
        simp [forecastDates_length]

theorem zip3With_getElem?_of {α β γ δ : Type} (f : α → β → γ → δ) :
    ∀ (as : List α) (bs : List β) (cs : List γ) (i : ℕ) (a : α) (b : β) (c : γ),
      as[i]? = some a → bs[i]? = some b → cs[i]? = some c →
      (zip3With f as bs cs)[i]? = some (f a b c) := by
  intro as
  induction as with
  | nil => intro bs cs i a b c ha _ _; simp at ha
  | cons x as ih =>
    intro bs cs i a b c ha hb hc
    cases bs with
    | nil => simp at hb
    | cons y bs =>
      cases cs with
      | nil => simp at hc
      | cons z cs =>
        cases i with
        | zero =>
          simp only [List.getElem?_cons_zero, Option.some.injEq] at ha hb hc
          subst ha; subst hb; subst hc
          simp [zip3With]
        | succ i =>
          simp only [List.getElem?_cons_succ] at ha hb hc
          simpa [zip3With] using ih bs cs i a b c ha hb hc

theorem zip3With_mkERow_shape :
    ∀ (as bs cs : List FRow), as.length = bs.length → as.length = cs.length →
      (zip3With mkERow as bs cs).length = as.length ∧
      (zip3With mkERow as bs cs).map ERow.date = as.map FRow.date := by
  intro as
  induction as with
  | nil => intro bs cs _ _; simp [zip3With]
  | cons x as ih =>
    intro bs cs h1 h2
    cases bs with
    | nil => simp at h1
    | cons y bs =>
      cases cs with
      | nil => simp at h2
      | cons z cs =>
        have hrec := ih bs cs (by simpa using h1) (by simpa using h2)
        simp [zip3With, mkERow, hrec.1, hrec.2]

theorem ensemble_shape (s : TimeSeries) (p : ℕ) (fit : Option (ℕ → Option ℚ))
    (rows : List ERow) (h : (ensemble_forecast s p fit).2 = some rows) :
    ∃ maf snf esf, moving_average_forecast s 3 p = some maf ∧
      snRows s.rows p = some snf ∧ esRows s.rows p fit = some esf ∧
      rows = zip3With mkERow maf snf esf := by
  unfold ensemble_forecast at h
  rw [sn_snd, sn_fst, es_snd, addMonthCol_rows] at h
  split at h
  · simp at h
  · split at h
    · simp at h
    · split at h
      · simp at h
      · simp only [Option.some.injEq] at h
        rename_i x1 maf hma x2 snf hsn x3 esf hes
        exact ⟨maf, snf, esf, hma, hsn, hes, h.symm⟩

/-! ### Claim theorems -/

/-- C2: for every non-empty monthly series and horizon `p`, the seasonal-naive
forecast returns exactly `p` entries whose target month-periods are the `p`
consecutive calendar months immediately following the series' last month. -/
theorem C2_seasonal_naive_horizon (s : TimeSeries) (p : ℕ) (L : ℤ)
    (hL : lastYM s = some L) :
    ((seasonal_naive_forecast s p).2.map List.length) = some p ∧
    ((seasonal_naive_forecast s p).2.map (fun rows => rows.map FRow.date)) =
      some ((List.range p).map (fun (i : ℕ) => L + 1 + (i : ℤ))) := by
  rw [sn_snd]
  unfold lastYM at hL
  unfold snRows
  rw [hL]
  constructor
  · simp [forecastDates]
  · simp [forecastDates, List.map_map]

theorem C2_seasonal_naive_horizon_witness :
    ((seasonal_naive_forecast { rows := [{ ym := 5, val := some 1 }], hasMonth := true } 2).2.map
      List.length) = some 2 ∧
    ((seasonal_naive_forecast { rows := [{ ym := 5, val := some 1 }], hasMonth := true } 2).2.map
      (fun rows => rows.map FRow.date)) =
      some ((List.range 2).map (fun (i : ℕ) => 5 + 1 + (i : ℤ))) :=
  C2_seasonal_naive_horizon { rows := [{ ym := 5, val := some 1 }], hasMonth := true } 2 5
    (by decide)

/-- C5: when the Holt-Winters fit fails (the `except` branch, `fit = none`),
`exponential_smoothing_forecast` does not raise: it returns exactly the
seasonal-naive forecast for the same column and horizon, and every returned
row carries the `"Seasonal Naive"` method label (so the degradation is visible
in the result, besides the printed warning). -/
theorem C5_es_fallback (s : TimeSeries) (p : ℕ) (hne : s.rows ≠ []) :
    exponential_smoothing_forecast s p none = seasonal_naive_forecast s p ∧
    (((exponential_smoothing_forecast s p none).2.getD []).all
      (fun r => r.method == "Seasonal Naive")) = true := by
  obtain ⟨m0, hm0⟩ := minYMrows_of_ne hne
  have hstate : esState s none = addMonthCol s := by
    unfold esState; rw [hm0]
  have hrows : esRows s.rows p none = snRows s.rows p := by
    unfold esRows; rw [hm0]
  constructor
  · show (esState s none, esRows s.rows p none) = (addMonthCol s, snRows s.rows p)
    rw [hstate, hrows]
  · rw [es_snd, hrows]
    obtain ⟨L, hL⟩ := lastYMrows_of_ne hne
    unfold snRows
    rw [hL]
    simp [List.all_eq_true]

theorem C5_es_fallback_witness :
    exponential_smoothing_forecast { rows := [{ ym := 0, val := some 1 }], hasMonth := true } 1
      none =
      seasonal_naive_forecast { rows := [{ ym := 0, val := some 1 }], hasMonth := true } 1 ∧
    (((exponential_smoothing_forecast { rows := [{ ym := 0, val := some 1 }], hasMonth := true } 1
      none).2.getD []).all (fun r => r.method == "Seasonal Naive")) = true :=
  C5_es_fallback { rows := [{ ym := 0, val := some 1 }], hasMonth := true } 1 (by decide)

/-- C8 counterexample: a series with a single observation (fewer than the
window of 3) makes `moving_average_forecast` return a full-length result whose
every forecast value is NaN — it neither shrinks the window nor fails. -/
theorem C8_short_series_cex :
    (({ rows := [{ ym := 0, val := some 1 }], hasMonth := true } : TimeSeries).rows.length < 3) ∧
    moving_average_forecast { rows := [{ ym := 0, val := some 1 }], hasMonth := true } 3 2 =
      some [{ date := 1, forecast := none, method := "Moving Average" },
        { date := 2, forecast := none, method := "Moving Average" }] := by
  decide

/-- C8 amended: with fewer observations than the window (and a non-empty
series), `moving_average_forecast` neither shrinks the window nor fails with
an error: it returns exactly `periods` entries whose forecast value is NaN
(the undefined full-window rolling average). -/
theorem C8_nan_with_short_series (s : TimeSeries) (window p : ℕ) (L : ℤ)
    (hL : lastYM s = some L) (hlen : s.rows.length < window) :
    moving_average_forecast s window p =
      some (((List.range p).map (fun (i : ℕ) => L + 1 + (i : ℤ))).map
        (fun d => { date := d, forecast := none, method := "Moving Average" })) := by
  unfold moving_average_forecast
  rw [hL]
  have hma : lastMA (s.rows.map Obs.val) window = none := by
    unfold lastMA
    simp [hlen]
  simp [forecastDates, hma]

theorem C8_nan_with_short_series_witness :
    moving_average_forecast { rows := [{ ym := 7, val := some 2 }], hasMonth := true } 2 1 =
      some (((List.range 1).map (fun (i : ℕ) => 7 + 1 + (i : ℤ))).map
        (fun d => { date := d, forecast := none, method := "Moving Average" })) :=
  C8_nan_with_short_series { rows := [{ ym := 7, val := some 2 }], hasMonth := true } 2 1 7
    (by decide) (by decide)

/-- C9 counterexample: two of the claim's operations mutate the series handed
to them — on a frame without the `'month'` column, `seasonal_naive_forecast`
(forecaster.py lines 27-28) and `analyze_seasonality` (analyzer.py lines
30-31) assign that column in place, so the input is not returned unchanged. -/
theorem C9_mutation_cex :
    (seasonal_naive_forecast { rows := [{ ym := 0, val := some 1 }], hasMonth := false } 1).1 ≠
      { rows := [{ ym := 0, val := some 1 }], hasMonth := false } ∧
    (seasonal_naive_forecast { rows := [{ ym := 0, val := some 1 }], hasMonth := false } 1).1 =
      { rows := [{ ym := 0, val := some 1 }], hasMonth := true } ∧
    (analyze_seasonality { rows := [{ ym := 0, val := some 1 }], hasMonth := false }).1 ≠
      { rows := [{ ym := 0, val := some 1 }], hasMonth := false } ∧
    (analyze_seasonality { rows := [{ ym := 0, val := some 1 }], hasMonth := false }).1 =
      { rows := [{ ym := 0, val := some 1 }], hasMonth := true } := by
  with_unfolding_all decide

/-- C9 amended: across all seven engine operations, the only mutation ever
performed on the input series is adding the derived `'month'` column when it
is absent — by `analyze_seasonality` and `seasonal_naive_forecast` (and
transitively by the exponential-smoothing fallback and the ensemble);
`trend_analysis` and `decompose_time_series` leave the series strictly
unchanged (`moving_average_forecast`, `calculate_confidence_intervals` and
`scenario_analysis` do not touch it by their very signatures).  The
observation rows are never added to, removed from, or modified, and a series
already carrying the `'month'` column is left entirely unchanged by every
operation. -/
theorem C9_month_column_only_mutation {α : Type} (s : TimeSeries) (p period : ℕ)
    (fit : Option (ℕ → Option ℚ)) (reg : LinReg) (adf_p : ℚ)
    (decomp : ℕ → List (Option ℚ) → α) :
    (analyze_seasonality s).1 = addMonthCol s ∧
    (trend_analysis s reg adf_p).1 = s ∧
    (decompose_time_series s period decomp).1 = s ∧
    (seasonal_naive_forecast s p).1 = addMonthCol s ∧
    (addMonthCol s).rows = s.rows ∧
    addMonthCol { rows := s.rows, hasMonth := true } = { rows := s.rows, hasMonth := true } ∧
    ((exponential_smoothing_forecast s p fit).1 = s ∨
      (exponential_smoothing_forecast s p fit).1 = addMonthCol s) ∧
    ((ensemble_forecast s p fit).1 = s ∨
      (ensemble_forecast s p fit).1 = addMonthCol s) := by
  refine ⟨rfl, rfl, rfl, rfl, addMonthCol_rows s, by simp [addMonthCol], ?_, ?_⟩
  · rw [es_fst]
    unfold esState
    split
    · exact Or.inr rfl
    · exact Or.inl rfl
  · unfold ensemble_forecast
    split
    · exact Or.inl rfl
    · split
      · exact Or.inr rfl
      · split
        · refine Or.inr ?_
          show (exponential_smoothing_forecast (seasonal_naive_forecast s p).1 p fit).1 =
            addMonthCol s
          rw [es_fst, sn_fst]
          exact esState_addMonthCol s fit
        · refine Or.inr ?_
          show (exponential_smoothing_forecast (seasonal_naive_forecast s p).1 p fit).1 =
            addMonthCol s
          rw [es_fst, sn_fst]
          exact esState_addMonthCol s fit

/-- C10: `calculate_confidence_intervals` is idempotent — a second application
with the same historical standard deviation overwrites the four bound columns
with identical values computed from the unchanged `forecast` column. -/
theorem C10_ci_idempotent (hist_std : ℚ) (fd : List CIRow) :
    calculate_confidence_intervals hist_std (calculate_confidence_intervals hist_std fd) =
      calculate_confidence_intervals hist_std fd := by
  unfold calculate_confidence_intervals
  rw [List.map_map]
  refine List.map_congr_left ?_
  intro r _
  rfl

/-- C1: whenever the ensemble and its three component forecasts are produced
(and the entries at position `i` are all defined, i.e. the variants succeeded
there), the ensemble point forecast at position `i` equals the arithmetic mean
of the moving-average, seasonal-naive, and exponential-smoothing forecasts at
position `i`. -/
theorem C1_ensemble_is_mean (s : TimeSeries) (p : ℕ) (fit : Option (ℕ → Option ℚ))
    (rows : List ERow) (maf snf esf : List FRow) (i : ℕ) (r : ERow) (a b c : ℚ)
    (h : (ensemble_forecast s p fit).2 = some rows)
    (hma : moving_average_forecast s 3 p = some maf)
    (hsn : (seasonal_naive_forecast s p).2 = some snf)
    (hes : (exponential_smoothing_forecast s p fit).2 = some esf)
    (hr : rows[i]? = some r)
    (ha : maf[i]?.map FRow.forecast = some (some a))
    (hb : snf[i]?.map FRow.forecast = some (some b))
    (hc : esf[i]?.map FRow.forecast = some (some c)) :
    r.forecast = some ((a + b + c) / 3) := by
  obtain ⟨maf', snf', esf', hma', hsn', hes', hrows⟩ := ensemble_shape s p fit rows h
  rw [sn_snd] at hsn
  rw [es_snd] at hes
  rw [hma] at hma'
  rw [hsn] at hsn'
  rw [hes] at hes'
  obtain rfl := Option.some.inj hma'
  obtain rfl := Option.some.inj hsn'
  obtain rfl := Option.some.inj hes'
  rcases Option.map_eq_some'.1 ha with ⟨ra, hra, hfa⟩
  rcases Option.map_eq_some'.1 hb with ⟨rb, hrb, hfb⟩
  rcases Option.map_eq_some'.1 hc with ⟨rc, hrc, hfc⟩
  have hz := zip3With_getElem?_of mkERow _ _ _ i ra rb rc hra hrb hrc
  rw [hrows, hz] at hr
  obtain rfl := Option.some.inj hr
  simp [mkERow, oadd, hfa, hfb, hfc]

theorem C1_ensemble_is_mean_witness :
    ERow.forecast { date := 24, forecast := some 4, method := "Ensemble", ma_forecast := some 3, seasonal_forecast := some 3, es_forecast := some 6 } =
      some (((3 : ℚ) + 3 + 6) / 3) :=
  C1_ensemble_is_mean
    { rows := [{ ym := 12, val := some 3 }, { ym := 22, val := some 3 }, { ym := 23, val := some 3 }], hasMonth := true }
    1 (some (fun _ => some 6))
    [{ date := 24, forecast := some 4, method := "Ensemble", ma_forecast := some 3, seasonal_forecast := some 3, es_forecast := some 6 }]
    [{ date := 24, forecast := some 3, method := "Moving Average" }]
    [{ date := 24, forecast := some 3, method := "Seasonal Naive" }]
    [{ date := 15, forecast := some 6, method := "Exponential Smoothing" }]
    0
    { date := 24, forecast := some 4, method := "Ensemble", ma_forecast := some 3, seasonal_forecast := some 3, es_forecast := some 6 }
    3 3 6
    (by with_unfolding_all decide) (by with_unfolding_all decide)
    (by with_unfolding_all decide) (by with_unfolding_all decide)
    (by with_unfolding_all decide) (by with_unfolding_all decide)
    (by with_unfolding_all decide) (by with_unfolding_all decide)

/-- C3: after `calculate_confidence_intervals` with the historical standard
deviation of the column (the nonnegative square root of the sample variance of
the series' column values), every entry with a defined point forecast carries
bands equal to the forecast minus/plus `1.28` and `1.96` times that standard
deviation — the same offsets for every forecast period — and they satisfy
`lower_95 ≤ lower_80 ≤ forecast ≤ upper_80 ≤ upper_95`. -/
theorem C3_ci_ordering (data : List (Option ℚ)) (hist_std : ℚ)
    (fd : List CIRow) (r : CIRow) (v : ℚ)
    (h0 : 0 ≤ hist_std) (hs : histVar data = some (hist_std ^ 2))
    (hr : r ∈ calculate_confidence_intervals hist_std fd)
    (hv : r.forecast = some v) :
    r.lower_80 = some (v - 128 / 100 * hist_std) ∧
    r.upper_80 = some (v + 128 / 100 * hist_std) ∧
    r.lower_95 = some (v - 196 / 100 * hist_std) ∧
    r.upper_95 = some (v + 196 / 100 * hist_std) ∧
    v - 196 / 100 * hist_std ≤ v - 128 / 100 * hist_std ∧
    v - 128 / 100 * hist_std ≤ v ∧ v ≤ v + 128 / 100 * hist_std ∧
    v + 128 / 100 * hist_std ≤ v + 196 / 100 * hist_std := by
  unfold calculate_confidence_intervals at hr
  rcases List.mem_map.1 hr with ⟨r₀, hr₀, rfl⟩
  have hv₀ : r₀.forecast = some v := hv
  have h128 : 0 ≤ 128 / 100 * hist_std := mul_nonneg (by norm_num) h0
  have h196 : 128 / 100 * hist_std ≤ 196 / 100 * hist_std :=
    mul_le_mul_of_nonneg_right (by norm_num) h0
  exact ⟨by simp [hv₀], by simp [hv₀], by simp [hv₀], by simp [hv₀],
    by linarith, by linarith, by linarith, by linarith⟩

theorem C3_ci_ordering_witness :
    CIRow.lower_80 { date := 0, forecast := some 2, method := "m", lower_80 := some 2, upper_80 := some 2, lower_95 := some 2, upper_95 := some 2 } =
      some (2 - 128 / 100 * 0) ∧
    CIRow.upper_80 { date := 0, forecast := some 2, method := "m", lower_80 := some 2, upper_80 := some 2, lower_95 := some 2, upper_95 := some 2 } =
      some (2 + 128 / 100 * 0) ∧
    CIRow.lower_95 { date := 0, forecast := some 2, method := "m", lower_80 := some 2, upper_80 := some 2, lower_95 := some 2, upper_95 := some 2 } =
      some (2 - 196 / 100 * 0) ∧
    CIRow.upper_95 { date := 0, forecast := some 2, method := "m", lower_80 := some 2, upper_80 := some 2, lower_95 := some 2, upper_95 := some 2 } =
      some (2 + 196 / 100 * 0) ∧
    (2 : ℚ) - 196 / 100 * 0 ≤ 2 - 128 / 100 * 0 ∧
    (2 : ℚ) - 128 / 100 * 0 ≤ 2 ∧ (2 : ℚ) ≤ 2 + 128 / 100 * 0 ∧
    (2 : ℚ) + 128 / 100 * 0 ≤ 2 + 196 / 100 * 0 :=
  C3_ci_ordering [some 1, some 1] 0
    [{ date := 0, forecast := some 2, method := "m", lower_80 := none, upper_80 := none, lower_95 := none, upper_95 := none }]
    { date := 0, forecast := some 2, method := "m", lower_80 := some 2, upper_80 := some 2, lower_95 := some 2, upper_95 := some 2 }
    2 (by with_unfolding_all decide) (by with_unfolding_all decide)
    (by with_unfolding_all decide) (by with_unfolding_all decide)

/-- C4: `scenario_analysis` adds, for every scenario `(name, m)` in the
supplied mapping, a column whose value at each period equals the base point
forecast times `m` exactly; with no mapping supplied it applies exactly the
default scenarios pessimistic 0.8, optimistic 1.2, conservative 0.9. -/
theorem C4_scenario_multipliers (fd : List SRow) (scs : List (String × ℚ))
    (name : String) (m v : ℚ) (r' : SRow)
    (hm : (name, m) ∈ scs)
    (hr : r' ∈ scenario_analysis fd (some scs))
    (hv : r'.forecast = some v) :
    (name, some (v * m)) ∈ r'.scen ∧
    scenario_analysis fd none =
      scenario_analysis fd
        (some [("pessimistic", 8 / 10), ("optimistic", 12 / 10),
          ("conservative", 9 / 10)]) := by
  constructor
  · unfold scenario_analysis at hr
    rcases List.mem_map.1 hr with ⟨r₀, hr₀, rfl⟩
    have hv₀ : r₀.forecast = some v := hv
    have hmem := List.mem_map_of_mem
      (fun q : String × ℚ => (q.1, r₀.forecast.map (fun x => x * q.2))) hm
    simpa [hv₀] using hmem
  · rfl

theorem C4_scenario_multipliers_witness :
    ("boost", some ((5 : ℚ) * 2)) ∈
      SRow.scen { forecast := some 5, scen := [("boost", some 10)] } ∧
    scenario_analysis [{ forecast := some 5, scen := [] }] none =
      scenario_analysis [{ forecast := some 5, scen := [] }]
        (some [("pessimistic", 8 / 10), ("optimistic", 12 / 10),
          ("conservative", 9 / 10)]) :=
  C4_scenario_multipliers [{ forecast := some 5, scen := [] }] [("boost", 2)] "boost" 2 5
    { forecast := some 5, scen := [("boost", some 10)] } (by with_unfolding_all decide)
    (by with_unfolding_all decide) (by with_unfolding_all decide)

/-- C6 counterexample: a series whose single observation is a January
(month index 24), forecasting one month ahead (February, index 25): no
observation lies one year prior and no observation shares February, yet
`seasonal_naive_forecast` does not fail — it returns a row whose forecast is
NaN (the mean of an empty selection). -/
theorem C6_no_input_error_cex :
    (List.filter (fun o => o.ym == 25 - 12)
      ([{ ym := 24, val := some 5 }] : List Obs)) = [] ∧
    (List.filter (fun o => monthOf o.ym == monthOf 25)
      ([{ ym := 24, val := some 5 }] : List Obs)) = [] ∧
    (seasonal_naive_forecast { rows := [{ ym := 24, val := some 5 }], hasMonth := false } 1).2 =
      some [{ date := 25, forecast := none, method := "Seasonal Naive" }] := by
  decide

/-- C6 amended: when a forecast month has no observation one year prior and no
historical observation shares its calendar month, `seasonal_naive_forecast`
does not raise an InputError: the call still succeeds with `periods` entries
and silently records an undefined (NaN) value for that month. -/
theorem C6_nan_fallback (s : TimeSeries) (p : ℕ) (L : ℤ) (i : ℕ)
    (hL : lastYM s = some L) (hi : i < p)
    (h1 : s.rows.filter (fun o => o.ym == L + 1 + (i : ℤ) - 12) = [])
    (h2 : s.rows.filter (fun o => monthOf o.ym == monthOf (L + 1 + (i : ℤ))) = []) :
    ((seasonal_naive_forecast s p).2.map List.length) = some p ∧
    ((seasonal_naive_forecast s p).2.bind (fun rows => rows[i]?)) =
      some { date := L + 1 + (i : ℤ), forecast := none, method := "Seasonal Naive" } := by
  rw [sn_snd]
  unfold lastYM at hL
  rw [snRows_shape s.rows p L hL]
  have hsn : snVal s.rows (L + 1 + (i : ℤ)) = none := by
    unfold snVal
    rw [h1]
    simp [colMean, h2]
  constructor
  · simp [forecastDates]
  · simp [forecastDates, List.getElem?_map, List.getElem?_range hi, hsn]

theorem C6_nan_fallback_witness :
    ((seasonal_naive_forecast { rows := [{ ym := 24, val := some 5 }], hasMonth := false }
      1).2.map List.length) = some 1 ∧
    ((seasonal_naive_forecast { rows := [{ ym := 24, val := some 5 }], hasMonth := false }
      1).2.bind (fun rows => rows[0]?)) =
      some { date := 25, forecast := none, method := "Seasonal Naive" } :=
  C6_nan_fallback { rows := [{ ym := 24, val := some 5 }], hasMonth := false } 1 24 0
    (by decide) (by decide) (by decide) (by decide)

/-- C7 counterexample: on a gapped series (months 0 and 2) with a successful
Holt-Winters fit, the exponential-smoothing component's own target month is 2
(its index is rebuilt from the minimum month and the row count), while the
ensemble's single entry is labelled month 3 (the moving-average dates): the
target-month sets disagree, yet `ensemble_forecast` succeeds and silently
relabels the component forecast instead of failing with a ConsistencyError. -/
theorem C7_no_consistency_check_cex :
    (exponential_smoothing_forecast
      { rows := [{ ym := 0, val := some 1 }, { ym := 2, val := some 1 }], hasMonth := true } 1
      (some (fun _ => some 1))).2 =
      some [{ date := 2, forecast := some 1, method := "Exponential Smoothing" }] ∧
    (ensemble_forecast
      { rows := [{ ym := 0, val := some 1 }, { ym := 2, val := some 1 }], hasMonth := true } 1
      (some (fun _ => some 1))).2 =
      some [{ date := 3, forecast := none, method := "Ensemble", ma_forecast := none, seasonal_forecast := none, es_forecast := some 1 }] := by
  decide

/-- C7 amended: `ensemble_forecast` performs no consistency check.  All three
variants always contribute exactly `periods` positional values, and any
ensemble result has exactly `periods` entries labelled with the
moving-average target months (the `periods` months following the series' last
month) — component forecasts whose own target months differ are silently
relabelled, never rejected. -/
theorem C7_positional_relabel (s : TimeSeries) (p : ℕ) (fit : Option (ℕ → Option ℚ))
    (rows : List ERow) (L : ℤ)
    (h : (ensemble_forecast s p fit).2 = some rows) (hL : lastYM s = some L) :
    rows.length = p ∧
    rows.map ERow.date = (List.range p).map (fun (i : ℕ) => L + 1 + (i : ℤ)) := by
  obtain ⟨maf, snf, esf, hma, hsn, hes, hrows⟩ := ensemble_shape s p fit rows h
  have hL' : lastYMrows s.rows = some L := hL
  rw [ma_shape s 3 p L hL] at hma
  rw [snRows_shape s.rows p L hL'] at hsn
  obtain rfl := Option.some.inj hma
  obtain rfl := Option.some.inj hsn
  have hlen1 : ((forecastDates L p).map (fun d =>
      ({ date := d, forecast := lastMA (s.rows.map Obs.val) 3,
         method := "Moving Average" } : FRow))).length = p := by
    simp [forecastDates_length]
  have hlen2 : ((forecastDates L p).map (fun d =>
      ({ date := d, forecast := snVal s.rows d,
         method := "Seasonal Naive" } : FRow))).length = p := by
    simp [forecastDates_length]
  have hlen3 : esf.length = p := esRows_length s.rows p fit esf hes
  have hshape := zip3With_mkERow_shape _ _ esf (hlen1.trans hlen2.symm)
    (hlen1.trans hlen3.symm)
  rw [hrows]
  refine ⟨hshape.1.trans hlen1, ?_⟩
  rw [hshape.2]
  simp [forecastDates, List.map_map]

theorem C7_positional_relabel_witness :
    ([{ date := 1, forecast := none, method := "Ensemble", ma_forecast := none, seasonal_forecast := none, es_forecast := none }] : List ERow).length = 1 ∧
    ([{ date := 1, forecast := none, method := "Ensemble", ma_forecast := none, seasonal_forecast := none, es_forecast := none }] : List ERow).map ERow.date =
      (List.range 1).map (fun (i : ℕ) => 0 + 1 + (i : ℤ)) :=
  C7_positional_relabel { rows := [{ ym := 0, val := some 1 }], hasMonth := true } 1 none
    [{ date := 1, forecast := none, method := "Ensemble", ma_forecast := none, seasonal_forecast := none, es_forecast := none }] 0 (by decide) (by decide)
